import Mathlib

/-!
Verification of the data-normalization, aggregation and classification core of
the failure-log dashboard (`src/src/App.jsx`).

JavaScript values flowing through the pipeline (parsed JSON payloads and raw
records) are modelled by `JVal`.  JSON numbers are modelled by `Int` (the
pipeline never computes with fractional values; non-integer numerals are out of
the modelled fragment).  `Option JVal` models a possibly-`undefined` value:
`none` is JavaScript `undefined`, `some .jnull` is JavaScript `null`.
Timestamps handed to `new Date(...)` are modelled by their epoch-milliseconds
value (`Option Int`, `none` being `null`); `new Date(null)` evaluates to the
epoch, i.e. to `0`.
-/

inductive JVal where
  | jnull : JVal
  | jbool : Bool → JVal
  | jnum : Int → JVal
  | jstr : String → JVal
  | jarr : List JVal → JVal
  | jobj : List (String × JVal) → JVal

/-- A raw upstream record: a JavaScript object, i.e. an ordered field list
(later bindings shadow earlier ones, as after `JSON.parse`). -/
abbrev RawRecord := List (String × JVal)

/-- Property read `obj[k]` on an object's field list: the last binding of `k`
wins, `none` means the property is `undefined`. -/
def jget (fs : List (String × JVal)) (k : String) : Option JVal :=
  fs.foldl (fun acc p => if p.1 == k then some p.2 else acc) none

def getV (rec : RawRecord) (k : String) : Option JVal := jget rec k

/-- JavaScript nullish coalescing `a ?? b`: `undefined` and `null` both fall
through to `b`. -/
def jnn (a : Option JVal) (b : Option JVal) : Option JVal :=
  match a with
  | none => b
  | some .jnull => b
  | some v => some v

/-- JavaScript truthiness of a value (`!v` is `!truthy v`). -/
def truthy : JVal → Bool
  | .jnull => false
  | .jbool b => b
  | .jnum n => n != 0
  | .jstr s => s != ""
  | .jarr _ => true
  | .jobj _ => true

/-- A primitive (non-array, non-object) value. -/
def primJV : JVal → Bool
  | .jarr _ => false
  | .jobj _ => false
  | _ => true

def isJsSpace (c : Char) : Bool :=
  c = ' ' || c = '\t' || c = '\n' || c = '\r'

/-- JavaScript `String.prototype.trim` (ASCII whitespace fragment). -/
def jsTrim (s : String) : String :=
  ⟨((s.toList.dropWhile isJsSpace).reverse.dropWhile isJsSpace).reverse⟩

/-- Case folding of `toLowerCase` (ASCII fragment of the JS semantics). -/
def lc (s : String) : String := ⟨s.toList.map Char.toLower⟩

def natDigitsAux : Nat → Nat → List Char
  | 0, _ => []
  | fuel + 1, n => if n < 10 then [Nat.digitChar n]
      else natDigitsAux fuel (n / 10) ++ [Nat.digitChar (n % 10)]

/-- Decimal numeral of a natural number (JS integer formatting). -/
def natStr (n : Nat) : String := ⟨natDigitsAux (n + 1) n⟩

/-- JavaScript `String(n)` for an integer number. -/
def intStr : Int → String
  | .ofNat m => natStr m
  | .negSucc m => "-" ++ natStr (m + 1)

mutual
/-- JavaScript `String(v)` conversion: `String(null) = "null"`,
arrays stringify as comma-joined elements (`Array.prototype.toString`,
with `null`/`undefined` elements giving the empty string), plain objects
stringify as `"[object Object]"`. -/
def jsString : JVal → String
  | .jnull => "null"
  | .jbool b => cond b "true" "false"
  | .jnum n => intStr n
  | .jstr s => s
  | .jarr xs => jsJoinArr xs
  | .jobj _ => "[object Object]"

def jsJoinArr : List JVal → String
  | [] => ""
  | [v] => jsArrElemStr v
  | v :: w :: rest => jsArrElemStr v ++ "," ++ jsJoinArr (w :: rest)

def jsArrElemStr : JVal → String
  | .jnull => ""
  | v => jsString v
end

/-- The ordered-fallback lookup `pick(...keys)` from `promoteCatalystFields`:
first key whose value is not `undefined`, not `null` and not `""`; otherwise
`null` (modelled as `none`). -/
def pick (rec : RawRecord) : List String → Option JVal
  | [] => none
  | k :: rest =>
    match getV rec k with
    | none => pick rec rest
    | some .jnull => pick rec rest
    | some (.jstr s) => if s == "" then pick rec rest else some (.jstr s)
    | some v => some v

/-- `promoteCatalystFields` from `src/src/App.jsx`: maps alternate field
spellings onto the canonical field names (object literal, in source order).
A failed `pick` stores `null`. -/
def promoteCatalystFields (rec : RawRecord) : RawRecord :=
  [("id", (pick rec ["id", "ID", "record_id", "recordId"]).getD .jnull),
   ("Name", (pick rec ["Name", "name"]).getD .jnull),
   ("ZOID", (pick rec ["ZOID", "zoid", "Zoid"]).getD .jnull),
   ("ZUID", (pick rec ["ZUID", "zuid", "Zuid"]).getD .jnull),
   ("Created_Time", (pick rec ["Created_Time", "created_time", "CreatedTime", "RequestTime", "requesttime"]).getD .jnull),
   ("Request_Time", (pick rec ["Request_Time", "RequestTime", "request_time", "requesttime", "Created_Time"]).getD .jnull),
   ("ServerName", (pick rec ["ServerName", "server_name", "servername", "Server_Name"]).getD .jnull),
   ("threadid", (pick rec ["threadid", "thread_id", "ThreadId", "threadId"]).getD .jnull),
   ("requestid", (pick rec ["requestid", "request_id", "RequestId", "requestId"]).getD .jnull),
   ("Statuscode", (pick rec ["Statuscode", "status_code", "statuscode", "StatusCode", "status"]).getD .jnull),
   ("BuildID", (pick rec ["BuildID", "build_id", "buildid", "BuildId"]).getD .jnull),
   ("Changeset", (pick rec ["Changeset", "changeset", "change_set"]).getD .jnull),
   ("Exception_trace", (pick rec ["Exception_trace", "exception_trace", "ExceptionTrace", "stacktrace", "stack_trace"]).getD .jnull),
   ("Error_message", (pick rec ["Error_message", "error_message", "ErrorMessage", "errormessage"]).getD .jnull),
   ("Reason_for_the_exception", (pick rec ["Reason_for_the_exception", "reason_for_the_exception", "ReasonForException", "reason", "failure_reason"]).getD .jnull),
   ("Flow_Type", (pick rec ["Flow_Type", "flow_type", "FlowType", "flowtype", "Flow Type"]).getD .jnull)]

/-- `normaliseFlowType` from `src/src/App.jsx`: the four fixed source-module
identifiers force the flow type; otherwise the embedded flow field (first
non-nullish among five spellings) is matched case-insensitively against the
four flow names, defaulting to `"Publish"` when the field is falsy. -/
def normaliseFlowType (rec : RawRecord) (sourceModule : String) : String :=
  if sourceModule == "signupfailure" then "Signup"
  else if sourceModule == "Invitefailure" then "Invite"
  else if sourceModule == "publishfailure" then "Publish"
  else if sourceModule == "upgradefailure" then "Upgrade"
  else
    match jnn (getV rec "Flow_Type") (jnn (getV rec "flow_type")
        (jnn (getV rec "FlowType") (jnn (getV rec "flowtype")
          (jnn (getV rec "Flow Type") none)))) with
    | none => "Publish"
    | some v =>
      if !truthy v then "Publish"
      else
        let s := lc (jsTrim (jsString v))
        if s == "publish" then "Publish"
        else if s == "signup" then "Signup"
        else if s == "invite" then "Invite"
        else if s == "upgrade" then "Upgrade"
        else jsTrim (jsString v)

/-- The canonical `FailureRecord` produced by `normaliseRecord`.  Fields keep
their source names; `Option JVal` fields are `none` when the source stores
JavaScript `null`. -/
structure NormalisedRecord where
  id : Option JVal
  Name : JVal
  ZOID : String
  ZUID : Option JVal
  threadid : Option JVal
  Statuscode : Option JVal
  ServerName : Option JVal
  requestid : Option JVal
  Changeset : Option JVal
  BuildID : Option JVal
  Flow_Type : String
  Created_Time : Option JVal
  Request_Time : Option JVal
  Source_Module : String
  Exception_trace : Option JVal
  Error_message : Option JVal
  Reason_for_the_exception : Option JVal

/-- `normaliseRecord` from `src/src/App.jsx`. -/
def normaliseRecord (rec : RawRecord) (sourceModule : String) : NormalisedRecord :=
  { id := jnn (getV rec "id") (jnn (getV rec "ID") none),
    Name := (jnn (getV rec "Name") (jnn (getV rec "name") (some (.jstr "Unknown")))).getD (.jstr "Unknown"),
    ZOID :=
      match getV rec "ZOID" with
      | none => "unknown"
      | some .jnull => "unknown"
      | some v => jsString v,
    ZUID := jnn (getV rec "ZUID") (jnn (getV rec "zuid") none),
    threadid := jnn (getV rec "threadid") none,
    Statuscode := jnn (getV rec "Statuscode") none,
    ServerName := jnn (getV rec "ServerName") none,
    requestid := jnn (getV rec "requestid") none,
    Changeset := jnn (getV rec "Changeset") none,
    BuildID := jnn (getV rec "BuildID") none,
    Flow_Type := normaliseFlowType rec sourceModule,
    Created_Time := jnn (getV rec "Created_Time") none,
    Request_Time := jnn (getV rec "Request_Time") (jnn (getV rec "Created_Time") none),
    Source_Module := sourceModule,
    Exception_trace := jnn (getV rec "Exception_trace") none,
    Error_message := jnn (getV rec "Error_message") none,
    Reason_for_the_exception := jnn (getV rec "Reason_for_the_exception") none }

/-!  ## Response parsing (`parseCatalystResponse`)

`JSON.parse` is a platform builtin; it is modelled by `jsonParse`, a
recursive-descent parser for the JSON fragment the pipeline exchanges
(null, booleans, integer numerals, escape-free strings, arrays, objects).
A failed parse is `none` (the JavaScript exception, caught by the caller).
-/

def skipWs : List Char → List Char
  | [] => []
  | c :: rest => if isJsSpace c then skipWs rest else c :: rest

def parseStrBody : List Char → Option (String × List Char)
  | [] => none
  | c :: rest =>
    if c = '"' then some ("", rest)
    else if c = '\\' then none
    else match parseStrBody rest with
      | some (s, r) => some (⟨c :: s.toList⟩, r)
      | none => none

def parseNatBody : List Char → Nat → Nat → Option (Nat × List Char)
  | [], acc, count => if count = 0 then none else some (acc, [])
  | c :: rest, acc, count =>
    if c.isDigit then parseNatBody rest (acc * 10 + (c.toNat - 48)) (count + 1)
    else if count = 0 then none else some (acc, c :: rest)

mutual
def parseVal : Nat → List Char → Option (JVal × List Char)
  | 0, _ => none
  | fuel + 1, l =>
    match skipWs l with
    | 'n' :: 'u' :: 'l' :: 'l' :: rest => some (.jnull, rest)
    | 't' :: 'r' :: 'u' :: 'e' :: rest => some (.jbool true, rest)
    | 'f' :: 'a' :: 'l' :: 's' :: 'e' :: rest => some (.jbool false, rest)
    | '"' :: rest =>
      match parseStrBody rest with
      | some (s, r) => some (.jstr s, r)
      | none => none
    | '[' :: rest =>
      (match skipWs rest with
       | ']' :: r => some (.jarr [], r)
       | l2 =>
         match parseArrItems fuel l2 with
         | some (xs, r) => some (.jarr xs, r)
         | none => none)
    | '{' :: rest =>
      (match skipWs rest with
       | '}' :: r => some (.jobj [], r)
       | l2 =>
         match parseObjItems fuel l2 with
         | some (fs, r) => some (.jobj fs, r)
         | none => none)
    | '-' :: rest =>
      (match parseNatBody rest 0 0 with
       | some (n, r) => some (.jnum (-(n : Int)), r)
       | none => none)
    | c :: rest =>
      if c.isDigit then
        match parseNatBody (c :: rest) 0 0 with
        | some (n, r) => some (.jnum (n : Int), r)
        | none => none
      else none
    | [] => none

def parseArrItems : Nat → List Char → Option (List JVal × List Char)
  | 0, _ => none
  | fuel + 1, l =>
    match parseVal fuel l with
    | none => none
    | some (v, r) =>
      match skipWs r with
      | ',' :: r2 =>
        (match parseArrItems fuel r2 with
         | some (xs, r3) => some (v :: xs, r3)
         | none => none)
      | ']' :: r2 => some ([v], r2)
      | _ => none

def parseObjItems : Nat → List Char → Option (List (String × JVal) × List Char)
  | 0, _ => none
  | fuel + 1, l =>
    match skipWs l with
    | '"' :: rest =>
      (match parseStrBody rest with
       | none => none
       | some (k, r) =>
         match skipWs r with
         | ':' :: r2 =>
           (match parseVal fuel r2 with
            | none => none
            | some (v, r3) =>
              match skipWs r3 with
              | ',' :: r4 =>
                (match parseObjItems fuel r4 with
                 | some (fs, r5) => some ((k, v) :: fs, r5)
                 | none => none)
              | '}' :: r4 => some ([(k, v)], r4)
              | _ => none)
         | _ => none)
    | _ => none
end

/-- Model of `JSON.parse` on the exchanged fragment; `none` is a thrown
`SyntaxError`. -/
def jsonParse (s : String) : Option JVal :=
  match parseVal (s.length + 1) s.toList with
  | some (v, rest) => if skipWs rest = [] then some v else none
  | none => none

/-- Optional-chained property read `x?.k` (also the plain `x.k` used on values
known to be non-nullish): objects look the key up; any other value gives
`undefined`. -/
def jfield : JVal → String → Option JVal
  | .jobj fs, k => jget fs k
  | _, _ => none

/-- `String`-typed unwrap step `if (typeof x === "string") x = JSON.parse(x)`. -/
def unwrapStr : JVal → Option JVal
  | .jstr s => jsonParse s
  | v => some v

/-- The three-level unwrap of `parseCatalystResponse`
(`l1 → l2 → l3`); `none` means some `JSON.parse` threw. -/
def unwrapL3 (raw : JVal) : Option JVal :=
  match unwrapStr raw with
  | none => none
  | some l1 =>
    match jnn (jfield l1 "output") (some l1) with
    | none => none
    | some l2v =>
      match unwrapStr l2v with
      | none => none
      | some l2 =>
        match jnn (jnn (match jfield l2 "details" with
                        | some d => jfield d "output"
                        | none => none)
                    (jfield l2 "data")) (some l2) with
        | none => none
        | some l3v => unwrapStr l3v

structure ParsedPage where
  data : List JVal
  hasMore : Bool

/-- `parseCatalystResponse` from `src/src/App.jsx`: unwrap up to three levels
of JSON-string nesting, then read off either a bare array or a
`{data, info.more_records}` object; anything that throws degrades to
`{data: [], hasMore: false}`. -/
def parseCatalystResponse (raw : JVal) : ParsedPage :=
  match unwrapL3 raw with
  | none => ⟨[], false⟩
  | some l3 =>
    match l3 with
    | .jarr xs => ⟨xs, false⟩
    | _ =>
      ⟨(match jfield l3 "data" with
        | some (.jarr xs) => xs
        | _ => []),
       (match (match jfield l3 "info" with
               | some i => jfield i "more_records"
               | none => none) with
        | some (.jbool true) => true
        | some (.jstr s) => s == "true"
        | _ => false)⟩

/-- Element-to-record coercion inside the `data.map(...)` call: property access
on `null` throws (propagated as `none`); objects expose their fields; any other
value has none of the looked-up properties. -/
def toRawRecord : JVal → Option RawRecord
  | .jnull => none
  | .jobj fs => some fs
  | _ => some []

structure ModResult where
  records : List NormalisedRecord
  hasMore : Bool

/-- `fetchPageFromModule` from `src/src/App.jsx`, at the payload boundary
(cache and HTTP collapsed into the delivered payload; `none` = the request
failed).  Any exception inside the `try` — parse failure or a `null` element
in `data` — is caught and degrades to `{records: [], hasMore: false}`. -/
def fetchPageFromModule (payload : Option JVal) (moduleName : String) : ModResult :=
  match payload with
  | none => ⟨[], false⟩
  | some raw =>
    let pr := parseCatalystResponse raw
    match pr.data.mapM toRawRecord with
    | none => ⟨[], false⟩
    | some rs => ⟨rs.map (fun r => normaliseRecord (promoteCatalystFields r) moduleName), pr.hasMore⟩

/-!  ## Sorting

Every `sort` in the pipeline uses a comparator of the shape
`(a, b) => new Date(bKey) - new Date(aKey)`, a total preorder once dates are
mapped to epoch milliseconds (`new Date(null) = 0`).  `Array.prototype.sort`
is stable (ECMA-262), and a stable sort under a total preorder is unique, so
stable insertion sort is an exact model. -/

def insertLe {α : Type} (le : α → α → Bool) (x : α) : List α → List α
  | [] => [x]
  | y :: ys => if le x y then x :: y :: ys else y :: insertLe le x ys

def jsSortLe {α : Type} (le : α → α → Bool) : List α → List α
  | [] => []
  | x :: xs => insertLe le x (jsSortLe le xs)

/-!  ## Source aggregation (`fetchPage`, `fetchAllRecords`)

The network/date collaborators are abstracted: `oracle m p` is the result of
`fetchPageFromModule(m, p)` and `dateMs` is `new Date(v).getTime()` for a
non-nullish value `v`. -/

def MODULES : List String :=
  ["publishfailure", "signupfailure", "Invitefailure", "upgradefailure"]

/-- Sort key of a normalised record: `new Date(r.Request_Time ?? r.Created_Time)`,
with a nullish result reading as the epoch. -/
def nrecDate (dateMs : JVal → Int) (r : NormalisedRecord) : Int :=
  match jnn r.Request_Time r.Created_Time with
  | none => 0
  | some v => dateMs v

/-- `a` may stay before `b` under the page comparator
`(a, b) => new Date(b.Request_Time ?? b.Created_Time) - new Date(a.Request_Time ?? a.Created_Time)`
(no swap exactly when the comparator is ≤ 0). -/
def nrecLe (dateMs : JVal → Int) (a b : NormalisedRecord) : Bool :=
  nrecDate dateMs b ≤ nrecDate dateMs a

/-- `fetchPage` from `src/src/App.jsx`: query the four modules at the same
page number, concatenate in fixed source order, sort by timestamp descending,
report `hasMore` when any module has more. -/
def fetchPage (dateMs : JVal → Int) (oracle : String → Nat → ModResult) (page : Nat) : ModResult :=
  let pub := oracle "publishfailure" page
  let sig := oracle "signupfailure" page
  let inv := oracle "Invitefailure" page
  let upg := oracle "upgradefailure" page
  ⟨jsSortLe (nrecLe dateMs) (pub.records ++ sig.records ++ inv.records ++ upg.records),
   pub.hasMore || sig.hasMore || inv.hasMore || upg.hasMore⟩

/-- The `while (more && page <= 10)` loop of `fetchAllRecords`, written with
the loop variable `page` and the remaining page budget `11 - page` as fuel. -/
def fetchAllFrom (dateMs : JVal → Int) (oracle : String → Nat → ModResult) :
    Nat → Nat → List NormalisedRecord
  | 0, _ => []
  | fuel + 1, page =>
    let r := fetchPage dateMs oracle page
    r.records ++ (if r.hasMore then fetchAllFrom dateMs oracle fuel (page + 1) else [])

/-- `fetchAllRecords` from `src/src/App.jsx`. -/
def fetchAllRecords (dateMs : JVal → Int) (oracle : String → Nat → ModResult) :
    List NormalisedRecord :=
  fetchAllFrom dateMs oracle 10 1

/-- The successive page numbers the loop passes to `fetchPage`. -/
def pagesFrom (hm : Nat → Bool) : Nat → Nat → List Nat
  | 0, _ => []
  | fuel + 1, page => page :: (if hm page then pagesFrom hm fuel (page + 1) else [])

def pagesRequested (dateMs : JVal → Int) (oracle : String → Nat → ModResult) : List Nat :=
  pagesFrom (fun p => (fetchPage dateMs oracle p).hasMore) 10 1

/-- The `(module, page)` requests issued by the loop, in issue order: each
iteration fans out to the four modules with the same page number. -/
def reqsFrom (hm : Nat → Bool) : Nat → Nat → List (String × Nat)
  | 0, _ => []
  | fuel + 1, page =>
    MODULES.map (fun m => (m, page)) ++
      (if hm page then reqsFrom hm fuel (page + 1) else [])

def requestLog (dateMs : JVal → Int) (oracle : String → Nat → ModResult) :
    List (String × Nat) :=
  reqsFrom (fun p => (fetchPage dateMs oracle p).hasMore) 10 1

/-- Per-module payload selection used to run `fetchPage` on four fixed
payloads (one upstream response per source). -/
def oracleOf (q1 q2 q3 q4 : Option JVal) : String → Nat → ModResult :=
  fun m _ =>
    fetchPageFromModule
      (if m == "publishfailure" then q1
       else if m == "signupfailure" then q2
       else if m == "Invitefailure" then q3
       else q4) m

/-!  ## Hierarchy (`buildHierarchy`)

`buildHierarchy` reads six fields of a record; `HRecord` is that projection of
`NormalisedRecord`, with the two timestamps already interpreted as epoch
milliseconds (`none` = `null`, and `new Date(null) = 0`) and the org key
source `ZUID` as an optional string. -/

structure HRecord where
  Name : String
  ZOID : String
  ZUID : Option String
  Flow_Type : String
  Request_Time : Option Int
  Created_Time : Option Int
deriving DecidableEq

/-- `new Date(x)` on a possibly-`null` epoch value. -/
def dv : Option Int → Int
  | none => 0
  | some t => t

/-- `r.Request_Time ?? r.Created_Time`. -/
def recTime (r : HRecord) : Option Int :=
  match r.Request_Time with
  | some t => some t
  | none => r.Created_Time

/-- Record comparator of the per-org sort (keep `a` before `b` iff
`new Date(b…) - new Date(a…) ≤ 0`). -/
def recLe (a b : HRecord) : Bool := dv (recTime b) ≤ dv (recTime a)

structure OrgNode where
  orgKey : String
  records : List HRecord
  count : Nat
  latest : Option Int
deriving DecidableEq

structure FlowNode where
  flow : String
  orgs : List OrgNode
  count : Nat
  latest : Option Int
deriving DecidableEq

structure ZoidNode where
  zoid : String
  sample : HRecord
  flows : List FlowNode
  count : Nat
  latest : Option Int
deriving DecidableEq

structure AppNode where
  name : String
  sample : HRecord
  zoids : List ZoidNode
  count : Nat
  latest : Option Int
deriving DecidableEq

/-- `byLatest` instantiated at each node level. -/
def orgLe (a b : OrgNode) : Bool := dv b.latest ≤ dv a.latest

def flowLe (a b : FlowNode) : Bool := dv b.latest ≤ dv a.latest

def zoidLe (a b : ZoidNode) : Bool := dv b.latest ≤ dv a.latest

def appLe (a b : AppNode) : Bool := dv b.latest ≤ dv a.latest

abbrev OrgMap := List (String × List HRecord)

abbrev FlowMap := List (String × OrgMap)

structure ZoidEntry where
  flowMap : FlowMap
  sample : HRecord

abbrev ZoidMap := List (String × ZoidEntry)

structure AppEntry where
  zoidMap : ZoidMap
  sample : HRecord

abbrev AppMap := List (String × AppEntry)

/-- `Map` upsert in insertion order: a fresh key is appended
(`if (!map.has(k)) map.set(k, init)`), then its value is modified in place. -/
def upsertAL {β : Type} (k : String) (f : β → β) (init : β) :
    List (String × β) → List (String × β)
  | [] => [(k, f init)]
  | (k2, v) :: rest =>
    if k2 == k then (k2, f v) :: rest else (k2, v) :: upsertAL k f init rest

/-- Innermost grouping step: push the record onto its org bucket
(`orgKey = rec.ZUID ?? "unknown"`). -/
def insertOrg (rec : HRecord) (om : OrgMap) : OrgMap :=
  upsertAL (rec.ZUID.getD "unknown") (fun recs => recs ++ [rec]) [] om

def insertFlow (rec : HRecord) (fm : FlowMap) : FlowMap :=
  upsertAL rec.Flow_Type (fun om => insertOrg rec om) [] fm

def insertZoid (rec : HRecord) (zm : ZoidMap) : ZoidMap :=
  upsertAL rec.ZOID (fun ze => ⟨insertFlow rec ze.flowMap, ze.sample⟩) ⟨[], rec⟩ zm

/-- One iteration of the grouping loop of `buildHierarchy`: the sample record
is captured when a key is first created and kept thereafter. -/
def insertRec (m : AppMap) (rec : HRecord) : AppMap :=
  upsertAL rec.Name (fun ae => ⟨insertZoid rec ae.zoidMap, ae.sample⟩) ⟨[], rec⟩ m

def groupRecords (records : List HRecord) : AppMap :=
  records.foldl insertRec []

def buildOrgNode (p : String × List HRecord) : OrgNode :=
  let sorted := jsSortLe recLe p.2
  ⟨p.1, sorted, sorted.length, (sorted.head?).bind recTime⟩

def buildFlowNode (p : String × OrgMap) : FlowNode :=
  let orgs := jsSortLe orgLe (p.2.map buildOrgNode)
  ⟨p.1, orgs, orgs.foldl (fun s o => s + o.count) 0, (orgs.head?).bind OrgNode.latest⟩

def buildZoidNode (p : String × ZoidEntry) : ZoidNode :=
  let flows := jsSortLe flowLe (p.2.flowMap.map buildFlowNode)
  ⟨p.1, p.2.sample, flows, flows.foldl (fun s f => s + f.count) 0,
   (flows.head?).bind FlowNode.latest⟩

def buildAppNode (p : String × AppEntry) : AppNode :=
  let zoids := jsSortLe zoidLe (p.2.zoidMap.map buildZoidNode)
  ⟨p.1, p.2.sample, zoids, zoids.foldl (fun s z => s + z.count) 0,
   (zoids.head?).bind ZoidNode.latest⟩

/-- `buildHierarchy` from `src/src/App.jsx`. -/
def buildHierarchy (records : List HRecord) : List AppNode :=
  jsSortLe appLe ((groupRecords records).map buildAppNode)

/-- Bottom-up count invariant checker: each node's count is the sum of its
children's counts, a leaf org node counting its records. -/
def orgCountOk (o : OrgNode) : Bool := o.count == o.records.length

def flowCountOk (f : FlowNode) : Bool :=
  (f.count == (f.orgs.map OrgNode.count).sum) && f.orgs.all orgCountOk

def zoidCountOk (z : ZoidNode) : Bool :=
  (z.count == (z.flows.map FlowNode.count).sum) && z.flows.all flowCountOk

def appCountOk (a : AppNode) : Bool :=
  (a.count == (a.zoids.map ZoidNode.count).sum) && a.zoids.all zoidCountOk

def countInvariant (apps : List AppNode) : Bool := apps.all appCountOk

/-- Adjacent-pairs check that a list is ordered under `le`. -/
def pairwiseAdj {α : Type} (le : α → α → Bool) : List α → Bool
  | [] => true
  | [_] => true
  | a :: b :: rest => le a b && pairwiseAdj le (b :: rest)

/-- Ordering invariant checker: every level (and the records inside each org)
is in descending order of the epoch-coerced latest timestamp. -/
def hierarchySorted (apps : List AppNode) : Bool :=
  pairwiseAdj appLe apps &&
    apps.all (fun a =>
      pairwiseAdj zoidLe a.zoids &&
        a.zoids.all (fun z =>
          pairwiseAdj flowLe z.flows &&
            z.flows.all (fun f =>
              pairwiseAdj orgLe f.orgs &&
                f.orgs.all (fun o => pairwiseAdj recLe o.records))))

/-!  ## Exception classifier (`EXCEPTION_PATTERNS`, `analyzeException`)

The signature regexes in the table are of four shapes, captured by `Pat`:
a case-sensitive literal (`/NPE/`, `/400/`), a case-insensitive literal
(`/NullPointerException/i`, with `\.` read as a literal dot), a
case-insensitive `a.*b(.*c)` chain (JS `.` does not cross line terminators,
so the pieces must occur in order on one line), and `/ORA-\d+/i`. -/

inductive Pat where
  | sub : String → Pat
  | subi : String → Pat
  | seqi : List String → Pat
  | oraNum : Pat
deriving DecidableEq

/-- Substring occurrence on character lists. -/
def listInfix (pat : List Char) : List Char → Bool
  | [] => pat.isEmpty
  | c :: t => pat.isPrefixOf (c :: t) || listInfix pat t

def strContains (hay pat : String) : Bool := listInfix pat.toList hay.toList

/-- First occurrence of `pat`; returns the suffix after the match. -/
def findAfter (pat : List Char) : List Char → Option (List Char)
  | [] => if pat.isEmpty then some [] else none
  | c :: t =>
    if pat.isPrefixOf (c :: t) then some ((c :: t).drop pat.length)
    else findAfter pat t

/-- The pieces of an `a.*b.*c` pattern occur in order within one line. -/
def seqInLine (parts : List String) (line : List Char) : Bool :=
  match parts with
  | [] => true
  | p :: rest =>
    match findAfter p.toList line with
    | none => false
    | some remainder => seqInLine rest remainder

/-- Split at JS line terminators (`\n`, `\r` in the modelled fragment). -/
def splitNLAux (acc : List Char) : List Char → List (List Char)
  | [] => [acc.reverse]
  | c :: t =>
    if c = '\n' || c = '\r' then acc.reverse :: splitNLAux [] t
    else splitNLAux (c :: acc) t

def splitNL (l : List Char) : List (List Char) := splitNLAux [] l

/-- `/ORA-\d+/i`: `"ora-"` followed by at least one digit (on lowercased text). -/
def oraTest : List Char → Bool
  | [] => false
  | c :: t =>
    ((("ora-".toList).isPrefixOf (c :: t)) &&
      (match (c :: t).drop 4 with
       | d :: _ => d.isDigit
       | [] => false)) || oraTest t

def patTest (p : Pat) (corpus : String) : Bool :=
  match p with
  | .sub s => listInfix s.toList corpus.toList
  | .subi s => listInfix (lc s).toList (lc corpus).toList
  | .seqi parts => (splitNL (lc corpus).toList).any (fun line => seqInLine parts line)
  | .oraNum => oraTest (lc corpus).toList

/-- A row of `EXCEPTION_PATTERNS`. -/
structure ExRule where
  patterns : List Pat
  title : String
  rootCause : String
  fix : String
  severity : String
deriving DecidableEq

/-- The fixed ordered signature table from `src/src/App.jsx` (declaration
order encodes priority). -/
def EXCEPTION_PATTERNS : List ExRule :=
  [⟨[.subi "NullPointerException", .sub "NPE"], "Null Pointer Exception",
    "A variable or object reference is `null` when the code tries to use it.",
    "Add a null check before using the object. Trace back through the stack to find where the variable is expected to be set but isn't.",
    "high"⟩,
   ⟨[.subi "ClassNotFoundException", .subi "NoClassDefFoundError"], "Class Not Found",
    "A required class is missing from the classpath at runtime.",
    "Verify all required dependencies/JARs are included in the deployment.",
    "critical"⟩,
   ⟨[.subi "ConnectionTimeout", .subi "SocketTimeoutException", .subi "ConnectException", .subi "Connection refused", .subi "Connection timed out"],
    "Connection / Timeout Error",
    "The server could not establish or maintain a network connection within the allowed time.",
    "Check if the target service is reachable. Review timeout config values.",
    "high"⟩,
   ⟨[.subi "SQLException", .oraNum, .subi "MySQLException", .subi "DataAccessException", .subi "JDBCException", .subi "deadlock", .subi "duplicate key", .subi "Duplicate entry"],
    "Database Error",
    "A database operation failed.",
    "Check the SQL state / error code for specifics.",
    "high"⟩,
   ⟨[.subi "OutOfMemoryError", .subi "Java heap space", .subi "GC overhead limit", .subi "PermGen space"],
    "Out of Memory Error",
    "The JVM ran out of heap memory.",
    "Increase JVM heap (-Xmx). Profile for memory leaks.",
    "critical"⟩,
   ⟨[.subi "StackOverflowError", .subi "stack overflow"], "Stack Overflow",
    "Infinite or excessively deep recursion.",
    "Find the recursive method and add a proper base case.",
    "high"⟩,
   ⟨[.sub "400", .subi "Bad Request", .subi "InvalidParameter", .subi "ValidationException", .subi "ConstraintViolation"],
    "Bad Request / Validation Error (400)",
    "The request contained invalid, missing, or malformed parameters.",
    "Review the request payload against the API contract.",
    "medium"⟩,
   ⟨[.sub "401", .sub "403", .subi "Unauthorized", .subi "Forbidden", .subi "AccessDeniedException", .subi "AuthenticationException", .subi "Invalid token", .subi "token expired"],
    "Authentication / Authorization Error (401/403)",
    "The request lacks valid credentials or the token has expired.",
    "Verify the auth token is present, valid, and not expired.",
    "high"⟩,
   ⟨[.sub "404", .subi "Not Found", .subi "ResourceNotFoundException", .subi "NoSuchKey"],
    "Resource Not Found (404)",
    "The requested resource, record, or endpoint does not exist.",
    "Validate that the resource ID exists before the operation.",
    "medium"⟩,
   ⟨[.sub "500", .subi "Internal Server Error", .subi "InternalError", .subi "ServiceException"],
    "Internal Server Error (500)",
    "An unhandled exception occurred on the server side.",
    "Look at the innermost exception in the stack trace.",
    "critical"⟩,
   ⟨[.subi "TimeoutException", .subi "Read timed out", .subi "Request timeout", .subi "Gateway Timeout", .sub "504"],
    "Request / Gateway Timeout",
    "The operation exceeded its time limit.",
    "Profile the slow operation. Consider increasing timeouts or optimizing the downstream call.",
    "high"⟩,
   ⟨[.subi "JsonParseException", .subi "JsonMappingException", .subi "SerializationException", .subi "UnrecognizedPropertyException", .subi "MismatchedInputException", .subi "JSONException"],
    "JSON / Serialization Error",
    "Failed to parse or serialize JSON.",
    "Log the raw input payload. Compare it against the expected model.",
    "medium"⟩,
   ⟨[.subi "PlatformTabComponentsUtil", .subi "updateLayout", .subi "constructJsonAndUpdateLayout", .subi "LayoutForm", .subi "createLayoutAction"],
    "Layout / Component Update Failure",
    "An error occurred while constructing or updating a CRM layout/component.",
    "Check for invalid field references or circular layout dependencies.",
    "high"⟩,
   ⟨[.subi "modulecreate.exception", .subi "ModuleCreateException", .subi "PublishException", .seqi ["publish", "fail"]],
    "Module Create / Publish Exception",
    "The module creation or publish pipeline threw an exception.",
    "Review the full stack trace for the innermost cause.",
    "critical"⟩,
   ⟨[.subi "upgrading customer", .seqi ["upgrade", "account"], .subi "UpgradeException"],
    "Upgrade Flow Exception",
    "The account upgrade process failed.",
    "Check the ZOID's current plan state and verify the billing/payment service.",
    "critical"⟩,
   ⟨[.subi "SignupException", .seqi ["signup", "fail"], .seqi ["account", "creat", "fail"], .seqi ["org", "creat", "fail"]],
    "Signup Flow Exception",
    "Account or organisation creation failed during the signup flow.",
    "Check if the ZOID/ZUID already exists. Look for duplicate key errors.",
    "critical"⟩,
   ⟨[.subi "InviteException", .seqi ["invite", "fail"], .seqi ["invitation", "error"]],
    "Invite Flow Exception",
    "Sending or processing an invite failed.",
    "Validate the invitee's email and check if the user already belongs to the org.",
    "high"⟩,
   ⟨[.subi "ClassCastException"], "Class Cast Exception",
    "Code attempted to cast an object to an incompatible type at runtime.",
    "Use `instanceof` checks before casting.",
    "medium"⟩,
   ⟨[.subi "IllegalArgumentException", .subi "IllegalStateException"], "Illegal Argument / State",
    "A method received an argument it cannot handle, or the object was in an invalid state.",
    "Add input validation before the failing method.",
    "medium"⟩,
   ⟨[.subi "IOException", .subi "FileNotFoundException", .subi "EOFException"], "I/O Error",
    "A file, stream, or I/O operation failed.",
    "Verify the file path and permissions. Ensure streams are closed properly.",
    "high"⟩]

/-- `rec.X ?? ""` followed by the implicit string conversion of
`Array.prototype.join`. -/
def optStr : Option JVal → String
  | none => ""
  | some v => jsString v

structure AnalysisResult where
  corpus : String
  matched : List ExRule   -- the source field `matches` (a Lean keyword)

/-- `analyzeException` from `src/src/App.jsx`: join trace, message and reason
with newlines and keep every rule one of whose patterns matches, in table
order. -/
def analyzeException (rec : NormalisedRecord) : AnalysisResult :=
  let corpus := String.intercalate "\n"
    [optStr rec.Exception_trace, optStr rec.Error_message, optStr rec.Reason_for_the_exception]
  ⟨corpus, EXCEPTION_PATTERNS.filter (fun r => r.patterns.any (fun p => patTest p corpus))⟩

/-!  ## Stack-frame extraction (`extractStackFrames`) -/

def isWordChar (c : Char) : Bool := c.isAlphanum || c = '_'

def afterDigits : List Char → Bool
  | [] => false
  | ')' :: _ => true
  | c :: rest => c.isDigit && afterDigits rest

def digitsParen : List Char → Bool
  | [] => false
  | c :: rest => c.isDigit && afterDigits (c :: rest)

def startsJavaTail : List Char → Bool
  | '.' :: 'j' :: 'a' :: 'v' :: 'a' :: ':' :: rest => digitsParen rest
  | _ => false

def scanJava : List Char → Bool
  | [] => false
  | c :: rest =>
    startsJavaTail (c :: rest) || (c ≠ '\n' && c ≠ '\r' && scanJava rest)

def scanParen : List Char → Bool
  | [] => false
  | c :: rest =>
    (c = '(' && scanJava rest) || (c ≠ '\n' && c ≠ '\r' && scanParen rest)

/-- Test of `/^\w.*\(.*\.java:\d+\)/`: a word character at the start, then an
opening parenthesis and a `.java:<digits>)` occurrence, with no line
terminator crossed by either gap. -/
def frameRegexTest (s : String) : Bool :=
  match s.toList with
  | [] => false
  | c :: rest => isWordChar c && scanParen rest

def strStartsWith (s pre : String) : Bool := pre.toList.isPrefixOf s.toList

def frameLine (l : String) : Bool := strStartsWith l "at " || frameRegexTest l

/-- JS `trace.split("\n")`. -/
def splitNewlineAux (acc : List Char) : List Char → List String
  | [] => [⟨acc.reverse⟩]
  | c :: t =>
    if c = '\n' then (⟨acc.reverse⟩ : String) :: splitNewlineAux [] t
    else splitNewlineAux (c :: acc) t

def jsSplitNewline (s : String) : List String := splitNewlineAux [] s.toList

/-- `extractStackFrames` from `src/src/App.jsx`: split on newlines, trim each
line, keep frame-shaped lines, truncate to `max`. -/
def extractStackFrames (trace : Option String) (max : Nat) : List String :=
  match trace with
  | none => []
  | some t =>
    if t == "" then []
    else (((jsSplitNewline t).map jsTrim).filter frameLine).take max

/-- Canonical flow-name table used by the amended-claim reference
formulation of the flow-type fallback. -/
def FLOW_CANON : List (String × String) :=
  [("publish", "Publish"), ("signup", "Signup"), ("invite", "Invite"), ("upgrade", "Upgrade")]

/-- Reference formulation of the amended flow-type fallback claim: for a
non-fixed source module, a missing or falsy flow field defaults to
`"Publish"`; a truthy flow field is matched case-insensitively against the
canonical table, and otherwise passed through trimmed. -/
def flowTypeSpecAmended (rec : RawRecord) : String :=
  match jnn (getV rec "Flow_Type") (jnn (getV rec "flow_type")
      (jnn (getV rec "FlowType") (jnn (getV rec "flowtype")
        (jnn (getV rec "Flow Type") none)))) with
  | none => "Publish"
  | some v =>
    if truthy v then
      match FLOW_CANON.lookup (lc (jsTrim (jsString v))) with
      | some canon => canon
      | none => jsTrim (jsString v)
    else "Publish"

/-!  ## Helper lemmas -/

theorem jsString_jstr (s : String) : jsString (.jstr s) = s := by
  simp [jsString]

theorem jsString_jnull : jsString .jnull = "null" := by
  simp [jsString]

theorem jsString_jbool (b : Bool) : jsString (.jbool b) = cond b "true" "false" := by
  simp [jsString]

theorem jsString_jnum (n : Int) : jsString (.jnum n) = intStr n := by
  simp [jsString]

theorem jsString_jarr_nil : jsString (.jarr []) = "" := by
  simp [jsString, jsJoinArr]

theorem natDigitsAux_ne_nil (fuel n : Nat) : natDigitsAux (fuel + 1) n ≠ [] := by
  rw [natDigitsAux]
  by_cases h : n < 10 <;> simp [h]

theorem natStr_ne_empty (n : Nat) : natStr n ≠ "" := by
  intro h
  exact natDigitsAux_ne_nil n n (congrArg String.data h)

theorem intStr_ne_empty (n : Int) : intStr n ≠ "" := by
  cases n with
  | ofNat m => exact natStr_ne_empty m
  | negSucc m =>
    intro h
    have h2 := congrArg String.data h
    simp [intStr, String.append] at h2

theorem perm_insertLe {α : Type} (le : α → α → Bool) (x : α) (l : List α) :
    (insertLe le x l).Perm (x :: l) := by
  induction l with
  | nil => exact List.Perm.refl _
  | cons y ys ih =>
    rw [insertLe]
    by_cases h : le x y
    · simp [h]
    · simp only [h, if_neg, Bool.false_eq_true, not_false_eq_true, if_false]
      exact (ih.cons y).trans (List.Perm.swap x y ys)

theorem perm_jsSortLe {α : Type} (le : α → α → Bool) (l : List α) :
    (jsSortLe le l).Perm l := by
  induction l with
  | nil => exact List.Perm.refl _
  | cons x xs ih =>
    exact (perm_insertLe le x (jsSortLe le xs)).trans (ih.cons x)

theorem all_jsSortLe {α : Type} (le : α → α → Bool) (p : α → Bool) (l : List α) :
    (jsSortLe le l).all p = l.all p := by
  apply Bool.eq_iff_iff.mpr
  simp only [List.all_eq_true]
  constructor
  · intro h x hx
    exact h x ((perm_jsSortLe le l).mem_iff.mpr hx)
  · intro h x hx
    exact h x ((perm_jsSortLe le l).mem_iff.mp hx)

theorem mem_jsSortLe {α : Type} {le : α → α → Bool} {x : α} {l : List α} :
    x ∈ jsSortLe le l ↔ x ∈ l :=
  (perm_jsSortLe le l).mem_iff

theorem pairwiseAdj_insertLe {α : Type} (le : α → α → Bool)
    (htot : ∀ a b, le a b = true ∨ le b a = true) (x : α) (l : List α)
    (hl : pairwiseAdj le l = true) : pairwiseAdj le (insertLe le x l) = true := by
  induction l with
  | nil => simp [insertLe, pairwiseAdj]
  | cons y ys ih =>
    rw [insertLe]
    by_cases h : le x y
    · simpa [pairwiseAdj, h] using hl
    · have hyx : le y x = true := (htot x y).resolve_left (by simpa using h)
      have hys : pairwiseAdj le ys = true := by
        cases ys with
        | nil => rfl
        | cons z zs => exact (Bool.and_elim_right (by simpa [pairwiseAdj] using hl))
      have hins := ih hys
      simp only [h, Bool.false_eq_true, not_false_eq_true, if_false]
      cases ys with
      | nil => simp [insertLe, pairwiseAdj, hyx]
      | cons z zs =>
        have hyz : le y z = true := Bool.and_elim_left (by simpa [pairwiseAdj] using hl)
        rw [insertLe] at hins ⊢
        by_cases h2 : le x z
        · simpa [pairwiseAdj, h2, hyx] using hins
        · simpa [pairwiseAdj, h2, hyz] using hins

theorem pairwiseAdj_jsSortLe {α : Type} (le : α → α → Bool)
    (htot : ∀ a b, le a b = true ∨ le b a = true) (l : List α) :
    pairwiseAdj le (jsSortLe le l) = true := by
  induction l with
  | nil => rfl
  | cons x xs ih => exact pairwiseAdj_insertLe le htot x (jsSortLe le xs) ih

theorem foldl_add_map {α : Type} (g : α → Nat) (l : List α) :
    ∀ init : Nat, l.foldl (fun s x => s + g x) init = init + (l.map g).sum := by
  induction l with
  | nil => intro init; simp
  | cons x xs ih =>
    intro init
    simp only [List.foldl_cons, List.map_cons, List.sum_cons, ih (init + g x)]
    omega

theorem isPrefixOf_map_toLower {p h : List Char} (hp : p.isPrefixOf h = true) :
    (p.map Char.toLower).isPrefixOf (h.map Char.toLower) = true := by
  induction p generalizing h with
  | nil => simp [List.isPrefixOf]
  | cons c cs ih =>
    cases h with
    | nil => simp [List.isPrefixOf] at hp
    | cons d ds =>
      simp only [List.isPrefixOf, Bool.and_eq_true, beq_iff_eq] at hp
      simp only [List.map_cons, List.isPrefixOf, Bool.and_eq_true, beq_iff_eq]
      exact ⟨congrArg Char.toLower hp.1, ih hp.2⟩

theorem listInfix_map_toLower {p h : List Char} (hp : listInfix p h = true) :
    listInfix (p.map Char.toLower) (h.map Char.toLower) = true := by
  induction h with
  | nil =>
    simp only [listInfix, List.isEmpty_iff] at hp
    simp [hp, listInfix, List.isEmpty_iff]
  | cons c cs ih =>
    simp only [listInfix, Bool.or_eq_true] at hp
    rcases hp with hp | hp
    · simp only [List.map_cons, listInfix, Bool.or_eq_true]
      exact Or.inl (isPrefixOf_map_toLower hp)
    · simp only [List.map_cons, listInfix, Bool.or_eq_true]
      exact Or.inr (ih hp)

theorem lc_toList (s : String) : (lc s).toList = s.toList.map Char.toLower := rfl

theorem all_map_general {α β : Type} (f : α → β) (p : β → Bool) (l : List α) :
    (l.map f).all p = l.all (fun a => p (f a)) := by
  induction l with
  | nil => rfl
  | cons x xs ih => simp [ih]

theorem orgCountOk_buildOrgNode (p : String × List HRecord) :
    orgCountOk (buildOrgNode p) = true := by
  simp [orgCountOk, buildOrgNode]

theorem flowCountOk_buildFlowNode (p : String × OrgMap) :
    flowCountOk (buildFlowNode p) = true := by
  simp only [flowCountOk, buildFlowNode, Bool.and_eq_true]
  refine ⟨by simp [foldl_add_map], ?_⟩
  rw [all_jsSortLe, all_map_general _ _ _]
  simp [List.all_eq_true, Function.comp, orgCountOk_buildOrgNode]

theorem zoidCountOk_buildZoidNode (p : String × ZoidEntry) :
    zoidCountOk (buildZoidNode p) = true := by
  simp only [zoidCountOk, buildZoidNode, Bool.and_eq_true]
  refine ⟨by simp [foldl_add_map], ?_⟩
  rw [all_jsSortLe, all_map_general _ _ _]
  simp [List.all_eq_true, Function.comp, flowCountOk_buildFlowNode]

theorem appCountOk_buildAppNode (p : String × AppEntry) :
    appCountOk (buildAppNode p) = true := by
  simp only [appCountOk, buildAppNode, Bool.and_eq_true]
  refine ⟨by simp [foldl_add_map], ?_⟩
  rw [all_jsSortLe, all_map_general _ _ _]
  simp [List.all_eq_true, Function.comp, zoidCountOk_buildZoidNode]

theorem recLe_total (a b : HRecord) : recLe a b = true ∨ recLe b a = true := by
  simp only [recLe, decide_eq_true_eq]
  exact Int.le_total _ _

theorem orgLe_total (a b : OrgNode) : orgLe a b = true ∨ orgLe b a = true := by
  simp only [orgLe, decide_eq_true_eq]
  exact Int.le_total _ _

theorem flowLe_total (a b : FlowNode) : flowLe a b = true ∨ flowLe b a = true := by
  simp only [flowLe, decide_eq_true_eq]
  exact Int.le_total _ _

theorem zoidLe_total (a b : ZoidNode) : zoidLe a b = true ∨ zoidLe b a = true := by
  simp only [zoidLe, decide_eq_true_eq]
  exact Int.le_total _ _

theorem appLe_total (a b : AppNode) : appLe a b = true ∨ appLe b a = true := by
  simp only [appLe, decide_eq_true_eq]
  exact Int.le_total _ _

theorem records_sorted_buildOrgNode (p : String × List HRecord) :
    pairwiseAdj recLe (buildOrgNode p).records = true := by
  simp only [buildOrgNode]
  exact pairwiseAdj_jsSortLe recLe recLe_total _

theorem orgs_sorted_buildFlowNode (p : String × OrgMap) :
    (pairwiseAdj orgLe (buildFlowNode p).orgs &&
      (buildFlowNode p).orgs.all (fun o => pairwiseAdj recLe o.records)) = true := by
  simp only [buildFlowNode, Bool.and_eq_true]
  refine ⟨pairwiseAdj_jsSortLe orgLe orgLe_total _, ?_⟩
  rw [all_jsSortLe, all_map_general _ _ _]
  simp only [List.all_eq_true, Function.comp]
  intro o _
  exact records_sorted_buildOrgNode o

theorem flows_sorted_buildZoidNode (p : String × ZoidEntry) :
    (pairwiseAdj flowLe (buildZoidNode p).flows &&
      (buildZoidNode p).flows.all (fun f =>
        pairwiseAdj orgLe f.orgs &&
          f.orgs.all (fun o => pairwiseAdj recLe o.records))) = true := by
  simp only [buildZoidNode, Bool.and_eq_true]
  refine ⟨pairwiseAdj_jsSortLe flowLe flowLe_total _, ?_⟩
  rw [all_jsSortLe, all_map_general _ _ _]
  simp only [List.all_eq_true, Function.comp]
  intro f _
  exact orgs_sorted_buildFlowNode f

theorem zoids_sorted_buildAppNode (p : String × AppEntry) :
    (pairwiseAdj zoidLe (buildAppNode p).zoids &&
      (buildAppNode p).zoids.all (fun z =>
        pairwiseAdj flowLe z.flows &&
          z.flows.all (fun f =>
            pairwiseAdj orgLe f.orgs &&
              f.orgs.all (fun o => pairwiseAdj recLe o.records)))) = true := by
  simp only [buildAppNode, Bool.and_eq_true]
  refine ⟨pairwiseAdj_jsSortLe zoidLe zoidLe_total _, ?_⟩
  rw [all_jsSortLe, all_map_general _ _ _]
  simp only [List.all_eq_true, Function.comp]
  intro z _
  exact flows_sorted_buildZoidNode z

/-- C1: for every raw record, each of the four fixed source-module identifiers
forces the corresponding fixed flow name, regardless of any embedded
flow-type field. -/
theorem sourceModule_forces_flowType (rec : RawRecord) :
    normaliseFlowType rec "publishfailure" = "Publish" ∧
    normaliseFlowType rec "signupfailure" = "Signup" ∧
    normaliseFlowType rec "Invitefailure" = "Invite" ∧
    normaliseFlowType rec "upgradefailure" = "Upgrade" :=
  ⟨rfl, rfl, rfl, rfl⟩

/-- C2: in every tree built by `buildHierarchy`, each node's count equals the
sum of its children's counts, and each leaf org node's count equals the number
of records in its record list, at all four levels. -/
theorem buildHierarchy_count_invariant (records : List HRecord) :
    countInvariant (buildHierarchy records) = true := by
  simp only [countInvariant, buildHierarchy]
  rw [all_jsSortLe, all_map_general _ _ _]
  simp [List.all_eq_true, Function.comp, appCountOk_buildAppNode]

/-- C8 (amended): the `byLatest` comparator coerces a missing (`null`) latest
timestamp to the epoch and is total — it never crashes — and every level of
the hierarchy (and the record list of each org) is in descending order of the
epoch-coerced latest timestamp.  Nodes with a missing timestamp therefore sort
after nodes with positive timestamps, but before nodes with negative
(pre-epoch) ones — not after every defined timestamp. -/
theorem buildHierarchy_sorted_epoch (records : List HRecord) :
    hierarchySorted (buildHierarchy records) = true ∧
    (∀ x y : Option Int, (decide (dv y ≤ dv x) || decide (dv x ≤ dv y)) = true) := by
  constructor
  · simp only [hierarchySorted, buildHierarchy, Bool.and_eq_true]
    refine ⟨pairwiseAdj_jsSortLe appLe appLe_total _, ?_⟩
    rw [all_jsSortLe, all_map_general _ _ _]
    simp only [List.all_eq_true, Function.comp]
    intro a _
    exact zoids_sorted_buildAppNode a
  · intro x y
    rcases Int.le_total (dv y) (dv x) with h | h <;> simp [h]

/-- C8 counterexample: with one record lacking both timestamps (null latest,
coerced to the epoch `0`) and one record whose timestamp is pre-epoch (`-1`),
the missing-timestamp group sorts BEFORE the group with a defined timestamp,
contradicting "ordered after every node with a defined timestamp". -/
theorem missing_timestamp_not_last :
    (buildHierarchy [⟨"A", "z1", none, "Publish", none, none⟩,
                     ⟨"B", "z1", none, "Publish", some (-1), none⟩]).map
        (fun a => (a.name, a.latest)) = [("A", none), ("B", some (-1))] := by
  decide

/-- C9 counterexample: a frame line with leading whitespace is returned
trimmed, so the returned entry is not a verbatim (character-for-character)
line of the trace. -/
theorem extractStackFrames_not_verbatim :
    extractStackFrames (some " at a.b(c.java:1)") 8 = ["at a.b(c.java:1)"] ∧
    "at a.b(c.java:1)" ∉ jsSplitNewline " at a.b(c.java:1)" := by
  decide

/-- C9 (amended): `extractStackFrames(trace, 8)` returns at most 8 entries,
and every returned entry is the trim of some line of the trace (verbatim only
up to the surrounding whitespace removed by `trim`). -/
theorem extractStackFrames_entries (trace : Option String) :
    (extractStackFrames trace 8).length ≤ 8 ∧
    (∀ t, trace = some t → ∀ e ∈ extractStackFrames trace 8,
      ∃ l ∈ jsSplitNewline t, e = jsTrim l) := by
  cases trace with
  | none =>
    refine ⟨by simp [extractStackFrames], ?_⟩
    intro t ht
    cases ht
  | some t =>
    by_cases h0 : t == ""
    · refine ⟨by simp [extractStackFrames, h0], ?_⟩
      intro t2 ht2 e he
      cases ht2
      simp [extractStackFrames, h0] at he
    · refine ⟨?_, ?_⟩
      · simp only [extractStackFrames, h0, Bool.false_eq_true, if_false]
        exact List.length_take_le _ _
      · intro t2 ht2 e he
        cases ht2
        simp only [extractStackFrames, h0, Bool.false_eq_true, if_false] at he
        have h1 := List.mem_of_mem_take he
        have h2 := (List.mem_filter.mp h1).1
        obtain ⟨l, hl, rfl⟩ := List.mem_map.mp h2
        exact ⟨l, hl, rfl⟩

/-- C9 witness for the amended theorem, at a concrete two-line trace. -/
theorem extractStackFrames_entries_witness :
    (extractStackFrames (some "x\n at a.b(c.java:3)") 8).length ≤ 8 ∧
    (∀ t, (some "x\n at a.b(c.java:3)" : Option String) = some t →
      ∀ e ∈ extractStackFrames (some "x\n at a.b(c.java:3)") 8,
        ∃ l ∈ jsSplitNewline t, e = jsTrim l) :=
  extractStackFrames_entries (some "x\n at a.b(c.java:3)")

/-- C3 counterexample: a present-but-empty flow-type field is falsy, so the
code defaults to `"Publish"` instead of passing through the trimmed original
string (which would be `""`). -/
theorem flowType_empty_string_not_passthrough :
    normaliseFlowType [("Flow_Type", JVal.jstr "")] "othermodule" = "Publish" ∧
    jsTrim (jsString (JVal.jstr "")) = "" ∧
    ("Publish" : String) ≠ "" := by
  refine ⟨rfl, ?_, by decide⟩
  rw [jsString_jstr]
  rfl

/-- C3 (amended): for a source module outside the four fixed identifiers, a
missing or falsy (e.g. empty-string) flow field yields `"Publish"`; a truthy
flow field is matched case-insensitively against the four flow names and
otherwise passed through trimmed. -/
theorem flowType_fallback_amended (rec : RawRecord) (sm : String)
    (h : sm ∉ ["publishfailure", "signupfailure", "Invitefailure", "upgradefailure"]) :
    normaliseFlowType rec sm = flowTypeSpecAmended rec := by
  have h1 : (sm == "signupfailure") = false :=
    beq_eq_false_iff_ne.mpr (fun he => h (by simp [he]))
  have h2 : (sm == "Invitefailure") = false :=
    beq_eq_false_iff_ne.mpr (fun he => h (by simp [he]))
  have h3 : (sm == "publishfailure") = false :=
    beq_eq_false_iff_ne.mpr (fun he => h (by simp [he]))
  have h4 : (sm == "upgradefailure") = false :=
    beq_eq_false_iff_ne.mpr (fun he => h (by simp [he]))
  unfold normaliseFlowType flowTypeSpecAmended
  simp only [h1, h2, h3, h4, Bool.false_eq_true, if_false]
  cases hv : jnn (getV rec "Flow_Type") (jnn (getV rec "flow_type")
      (jnn (getV rec "FlowType") (jnn (getV rec "flowtype")
        (jnn (getV rec "Flow Type") none)))) with
  | none => rfl
  | some v =>
    cases ht : truthy v with
    | false => simp [ht]
    | true =>
      simp only [ht, Bool.not_true, Bool.false_eq_true, if_false, if_true,
        FLOW_CANON, List.lookup]
      by_cases hp : (lc (jsTrim (jsString v)) == "publish") = true
      · simp [hp]
      · simp only [hp, Bool.false_eq_true, if_false]
        by_cases hs : (lc (jsTrim (jsString v)) == "signup") = true
        · simp [hs, hp]
        · simp only [hs, Bool.false_eq_true, if_false]
          by_cases hi : (lc (jsTrim (jsString v)) == "invite") = true
          · simp [hi, hp, hs]
          · simp only [hi, Bool.false_eq_true, if_false]
            by_cases hu : (lc (jsTrim (jsString v)) == "upgrade") = true
            · simp [hu, hp, hs, hi]
            · simp [hu, hp, hs, hi]

/-- C3 witness for the amended theorem: an unrecognised truthy flow string
from a non-fixed source. -/
theorem flowType_fallback_amended_witness :
    ("someOtherModule" : String) ∉
        ["publishfailure", "signupfailure", "Invitefailure", "upgradefailure"] ∧
    normaliseFlowType [("flow_type", JVal.jstr "weird")] "someOtherModule" =
      flowTypeSpecAmended [("flow_type", JVal.jstr "weird")] :=
  ⟨by decide,
   flowType_fallback_amended [("flow_type", JVal.jstr "weird")] "someOtherModule" (by decide)⟩

theorem pick_spec (rec : RawRecord) (keys : List String) (v : JVal)
    (h : pick rec keys = some v) :
    v ≠ .jnull ∧ ∀ s, v = .jstr s → s ≠ "" := by
  induction keys with
  | nil => simp [pick] at h
  | cons k ks ih =>
    rw [pick] at h
    cases hg : getV rec k with
    | none =>
      rw [hg] at h
      exact ih h
    | some w =>
      rw [hg] at h
      cases w with
      | jnull => exact ih h
      | jstr s =>
        have h2 : (if (s == "") = true then pick rec ks else some (.jstr s)) = some v := h
        by_cases hs : (s == "") = true
        · rw [if_pos hs] at h2
          exact ih h2
        · rw [if_neg hs] at h2
          cases h2
          refine ⟨(by intro hc; cases hc), ?_⟩
          intro s2 hs2
          cases hs2
          intro hc
          exact hs (by simp [hc])
      | jbool b =>
        cases h
        exact ⟨(by intro hc; cases hc), (by intro s2 hs2; cases hs2)⟩
      | jnum n =>
        cases h
        exact ⟨(by intro hc; cases hc), (by intro s2 hs2; cases hs2)⟩
      | jarr xs =>
        cases h
        exact ⟨(by intro hc; cases hc), (by intro s2 hs2; cases hs2)⟩
      | jobj fs =>
        cases h
        exact ⟨(by intro hc; cases hc), (by intro s2 hs2; cases hs2)⟩

theorem jsString_ne_empty_prim (v : JVal) (hp : primJV v = true) (hn : v ≠ .jnull)
    (hs : ∀ s, v = .jstr s → s ≠ "") : jsString v ≠ "" := by
  cases v with
  | jnull => exact absurd rfl hn
  | jbool b =>
    rw [jsString_jbool]
    cases b <;> decide
  | jnum n =>
    rw [jsString_jnum]
    exact intStr_ne_empty n
  | jstr s =>
    rw [jsString_jstr]
    exact hs s rfl
  | jarr xs => simp [primJV] at hp
  | jobj fs => simp [primJV] at hp

/-- C7 (amended): a raw record carrying no tenant id under any recognized
spelling normalizes to the literal tenant id `"unknown"`; and as long as any
present tenant-id value is a primitive (string, number, boolean or null — the
shape the upstream feeds produce), the normalized tenant id is never the empty
string.  (A non-primitive value whose JS string conversion is empty, such as
`[]`, escapes this: see the counterexample.) -/
theorem tenantId_defaults_unknown (rec : RawRecord) (sm : String)
    (hprim : (match pick rec ["ZOID", "zoid", "Zoid"] with
              | none => true
              | some v => primJV v) = true) :
    (normaliseRecord (promoteCatalystFields rec) sm).ZOID ≠ "" ∧
    (getV rec "ZOID" = none → getV rec "zoid" = none → getV rec "Zoid" = none →
      (normaliseRecord (promoteCatalystFields rec) sm).ZOID = "unknown") := by
  have hZ : (normaliseRecord (promoteCatalystFields rec) sm).ZOID =
      (match (pick rec ["ZOID", "zoid", "Zoid"]).getD .jnull with
       | .jnull => "unknown"
       | v => jsString v) := by
    show (match some ((pick rec ["ZOID", "zoid", "Zoid"]).getD .jnull) with
          | none => "unknown"
          | some .jnull => "unknown"
          | some v => jsString v) = _
    cases hc : (pick rec ["ZOID", "zoid", "Zoid"]).getD .jnull <;> rfl
  constructor
  · rw [hZ]
    cases hp : pick rec ["ZOID", "zoid", "Zoid"] with
    | none => decide
    | some v =>
      have hv := pick_spec rec _ v hp
      rw [hp] at hprim
      cases v with
      | jnull => exact absurd rfl hv.1
      | jbool b => exact jsString_ne_empty_prim (.jbool b) hprim hv.1 hv.2
      | jnum n => exact jsString_ne_empty_prim (.jnum n) hprim hv.1 hv.2
      | jstr s => exact jsString_ne_empty_prim (.jstr s) hprim hv.1 hv.2
      | jarr xs => simp [primJV] at hprim
      | jobj fs => simp [primJV] at hprim
  · intro h1 h2 h3
    rw [hZ]
    have hp : pick rec ["ZOID", "zoid", "Zoid"] = none := by
      simp [pick, h1, h2, h3]
    rw [hp]
    rfl

/-- C7 witness for the amended theorem: a raw record with no tenant-id field
at all. -/
theorem tenantId_defaults_unknown_witness :
    ((match pick [("Name", JVal.jstr "x")] ["ZOID", "zoid", "Zoid"] with
      | none => true
      | some v => primJV v) = true) ∧
    ((normaliseRecord (promoteCatalystFields [("Name", JVal.jstr "x")]) "m").ZOID ≠ "" ∧
     (getV [("Name", JVal.jstr "x")] "ZOID" = none →
      getV [("Name", JVal.jstr "x")] "zoid" = none →
      getV [("Name", JVal.jstr "x")] "Zoid" = none →
      (normaliseRecord (promoteCatalystFields [("Name", JVal.jstr "x")]) "m").ZOID = "unknown")) :=
  ⟨by decide, tenantId_defaults_unknown [("Name", JVal.jstr "x")] "m" (by decide)⟩

/-- C7 counterexample: an array-valued `ZOID` survives `pick` (it is neither
`undefined`, `null` nor `""`), and `String([])` is the empty string, so the
normalized tenant id CAN be empty — the "never the empty string" part of the
claim fails. -/
theorem tenantId_empty_for_array_zoid :
    (normaliseRecord (promoteCatalystFields [("ZOID", JVal.jarr [])]) "publishfailure").ZOID
      = "" := by
  have h : (normaliseRecord (promoteCatalystFields [("ZOID", JVal.jarr [])])
      "publishfailure").ZOID = jsString (.jarr []) := rfl
  rw [h, jsString_jarr_nil]

theorem pagesFrom_length_le (hm : Nat → Bool) (fuel page : Nat) :
    (pagesFrom hm fuel page).length ≤ fuel := by
  induction fuel generalizing page with
  | zero => simp [pagesFrom]
  | succ n ih =>
    rw [pagesFrom]
    by_cases h : hm page
    · simp only [h, if_true, List.length_cons]
      exact Nat.succ_le_succ (ih (page + 1))
    · simp only [h, Bool.false_eq_true, if_false, List.length_cons, List.length_nil]
      omega

theorem pagesFrom_eq_range' (hm : Nat → Bool) (fuel : Nat) :
    ∀ page, pagesFrom hm fuel page = List.range' page (pagesFrom hm fuel page).length := by
  induction fuel with
  | zero => intro page; rfl
  | succ n ih =>
    intro page
    rw [pagesFrom]
    by_cases h : hm page
    · simp only [h, if_true, List.length_cons]
      show _ = page :: List.range' (page + 1) (pagesFrom hm n (page + 1)).length
      exact congrArg (page :: ·) (ih (page + 1))
    · simp only [h, Bool.false_eq_true, if_false]
      rfl

theorem pagesFrom_mem_succ (hm : Nat → Bool) (fuel : Nat) :
    ∀ start q, q + 1 ∈ pagesFrom hm fuel start → q + 1 = start ∨ hm q = true := by
  induction fuel with
  | zero =>
    intro start q h
    simp [pagesFrom] at h
  | succ n ih =>
    intro start q h
    rw [pagesFrom] at h
    rcases List.mem_cons.mp h with h1 | h1
    · exact Or.inl h1
    · by_cases hh : hm start
      · rw [if_pos hh] at h1
        rcases ih (start + 1) q h1 with h2 | h2
        · right
          have hq : q = start := Nat.succ_injective h2
          rw [hq]
          exact hh
        · exact Or.inr h2
      · rw [if_neg hh] at h1
        simp at h1

theorem fetchAllFrom_eq (dateMs : JVal → Int) (oracle : String → Nat → ModResult)
    (fuel : Nat) :
    ∀ page, fetchAllFrom dateMs oracle fuel page =
      ((pagesFrom (fun p => (fetchPage dateMs oracle p).hasMore) fuel page).map
        (fun q => (fetchPage dateMs oracle q).records)).flatten := by
  induction fuel with
  | zero => intro page; rfl
  | succ n ih =>
    intro page
    rw [fetchAllFrom, pagesFrom]
    by_cases h : (fetchPage dateMs oracle page).hasMore
    · simp [h, ih (page + 1)]
    · simp [h]

theorem reqsFrom_eq (hm : Nat → Bool) (fuel : Nat) :
    ∀ page, reqsFrom hm fuel page =
      ((pagesFrom hm fuel page).map (fun q => MODULES.map (fun m => (m, q)))).flatten := by
  induction fuel with
  | zero => intro page; rfl
  | succ n ih =>
    intro page
    rw [reqsFrom, pagesFrom]
    by_cases h : hm page
    · simp [h, ih (page + 1)]
    · simp [h]

/-- C4: the page loop requests the same page number from each of the four
sources in lock-step (the request log is, page by page, the four modules
paired with that page), advances from page `p+1` to `p+2` only when some
source reported more data at page `p+1` (the page-level `hasMore` is the
disjunction of the four sources' flags), visits the consecutive pages
`1, 2, …, k`, and stops after at most 10 pages. -/
theorem fetchAllRecords_pagination (dateMs : JVal → Int)
    (oracle : String → Nat → ModResult) (p : Nat)
    (h : p + 2 ∈ pagesRequested dateMs oracle) :
    (fetchPage dateMs oracle (p + 1)).hasMore = true ∧
    (pagesRequested dateMs oracle).length ≤ 10 ∧
    pagesRequested dateMs oracle = List.range' 1 (pagesRequested dateMs oracle).length ∧
    fetchAllRecords dateMs oracle =
      ((pagesRequested dateMs oracle).map
        (fun q => (fetchPage dateMs oracle q).records)).flatten ∧
    requestLog dateMs oracle =
      ((pagesRequested dateMs oracle).map
        (fun q => MODULES.map (fun m => (m, q)))).flatten ∧
    (∀ q, (fetchPage dateMs oracle q).hasMore =
      ((oracle "publishfailure" q).hasMore || (oracle "signupfailure" q).hasMore ||
        (oracle "Invitefailure" q).hasMore || (oracle "upgradefailure" q).hasMore)) := by
  refine ⟨?_, pagesFrom_length_le _ 10 1, pagesFrom_eq_range' _ 10 1,
    fetchAllFrom_eq dateMs oracle 10 1, reqsFrom_eq _ 10 1, fun q => rfl⟩
  rcases pagesFrom_mem_succ (fun q => (fetchPage dateMs oracle q).hasMore) 10 1 (p + 1) h
    with h2 | h2
  · omega
  · exact h2

/-- C4 witness: an upstream that always reports more data drives the loop
through the full ten-page cap. -/
theorem fetchAllRecords_pagination_witness :
    (0 + 2 ∈ pagesRequested (fun _ => 0) (fun _ _ => ⟨[], true⟩)) ∧
    ((fetchPage (fun _ => 0) (fun _ _ => ⟨[], true⟩) (0 + 1)).hasMore = true ∧
     (pagesRequested (fun _ => 0) (fun _ _ => ⟨[], true⟩)).length ≤ 10 ∧
     pagesRequested (fun _ => 0) (fun _ _ => ⟨[], true⟩) =
       List.range' 1 (pagesRequested (fun _ => 0) (fun _ _ => ⟨[], true⟩)).length ∧
     fetchAllRecords (fun _ => 0) (fun _ _ => ⟨[], true⟩) =
       ((pagesRequested (fun _ => 0) (fun _ _ => ⟨[], true⟩)).map
         (fun q => (fetchPage (fun _ => 0) (fun _ _ => ⟨[], true⟩) q).records)).flatten ∧
     requestLog (fun _ => 0) (fun _ _ => ⟨[], true⟩) =
       ((pagesRequested (fun _ => 0) (fun _ _ => ⟨[], true⟩)).map
         (fun q => MODULES.map (fun m => (m, q)))).flatten ∧
     (∀ q, (fetchPage (fun _ => 0) (fun _ _ => ⟨[], true⟩) q).hasMore =
       (((fun _ _ => (⟨[], true⟩ : ModResult)) "publishfailure" q).hasMore ||
         ((fun _ _ => (⟨[], true⟩ : ModResult)) "signupfailure" q).hasMore ||
         ((fun _ _ => (⟨[], true⟩ : ModResult)) "Invitefailure" q).hasMore ||
         ((fun _ _ => (⟨[], true⟩ : ModResult)) "upgradefailure" q).hasMore))) :=
  ⟨by decide, fetchAllRecords_pagination (fun _ => 0) (fun _ _ => ⟨[], true⟩) 0 (by decide)⟩

/-- C5: a malformed payload for a single source degrades to zero records and
`hasMore = false` for that source only — the page-level aggregation equals the
aggregation with that source replaced by an empty response, the other three
sources untouched (all modelled functions are total, so nothing ever throws);
and the double-encoded payload `{data: "[]", info: {more_records: "false"}}`
parses to zero records and `hasMore = false`. -/
theorem malformed_source_degrades (dateMs : JVal → Int) (s : String)
    (p2 p3 p4 : Option JVal) (h : jsonParse s = none) :
    parseCatalystResponse (.jstr s) = ⟨[], false⟩ ∧
    fetchPageFromModule (some (.jstr s)) "publishfailure" = ⟨[], false⟩ ∧
    parseCatalystResponse (.jobj [("data", .jstr "[]"),
      ("info", .jobj [("more_records", .jstr "false")])]) = ⟨[], false⟩ ∧
    fetchPage dateMs (oracleOf (some (.jstr s)) p2 p3 p4) 1 =
      fetchPage dateMs (oracleOf (some (.jobj [])) p2 p3 p4) 1 := by
  have hu : unwrapL3 (.jstr s) = none := by
    simp only [unwrapL3, unwrapStr, h]
  have h1 : parseCatalystResponse (.jstr s) = ⟨[], false⟩ := by
    simp only [parseCatalystResponse, hu]
  have h2 : fetchPageFromModule (some (.jstr s)) "publishfailure" = ⟨[], false⟩ := by
    simp only [fetchPageFromModule, h1]
    rfl
  have e1 : fetchPageFromModule (some (.jobj [])) "publishfailure" = ⟨[], false⟩ := rfl
  have hfp : ∀ q1 : Option JVal,
      fetchPage dateMs (oracleOf q1 p2 p3 p4) 1 =
        ⟨jsSortLe (nrecLe dateMs)
          ((fetchPageFromModule q1 "publishfailure").records ++
            (fetchPageFromModule p2 "signupfailure").records ++
            (fetchPageFromModule p3 "Invitefailure").records ++
            (fetchPageFromModule p4 "upgradefailure").records),
         (fetchPageFromModule q1 "publishfailure").hasMore ||
           (fetchPageFromModule p2 "signupfailure").hasMore ||
           (fetchPageFromModule p3 "Invitefailure").hasMore ||
           (fetchPageFromModule p4 "upgradefailure").hasMore⟩ := fun q1 => rfl
  refine ⟨h1, h2, rfl, ?_⟩
  rw [hfp, hfp, h2, e1]

/-- C5 witness: the unparsable payload `"["` for the first source, empty
payloads for the rest. -/
theorem malformed_source_degrades_witness :
    jsonParse "[" = none ∧
    (parseCatalystResponse (.jstr "[") = ⟨[], false⟩ ∧
     fetchPageFromModule (some (.jstr "[")) "publishfailure" = ⟨[], false⟩ ∧
     parseCatalystResponse (.jobj [("data", .jstr "[]"),
       ("info", .jobj [("more_records", .jstr "false")])]) = ⟨[], false⟩ ∧
     fetchPage (fun _ => 0) (oracleOf (some (.jstr "[")) none none none) 1 =
       fetchPage (fun _ => 0) (oracleOf (some (.jobj [])) none none none) 1) :=
  ⟨rfl, malformed_source_degrades (fun _ => 0) "[" none none none rfl⟩

/-- C10 counterexample: an unwrapped object with NO `data` array still has its
`info.more_records` flag honored (`hasMore = true`), refuting "the flag is
honored only when the final unwrapped value is an object carrying a `data`
array". -/
theorem moreRecords_honored_without_data_array :
    parseCatalystResponse (.jobj [("info", .jobj [("more_records", .jbool true)])]) =
      ⟨[], true⟩ := rfl

/-- C10 (amended): whenever the final unwrapped value is a bare array —
including the case where the envelope's `data` field is a JSON-encoded string
parsing to a (possibly non-empty) array — `parseCatalystResponse` returns
`hasMore = false` unconditionally, ignoring any `info.more_records` flag (even
a literal `true`); the flag is honored whenever the final unwrapped value is
NOT a bare array, even when it carries no `data` array (records then degrade
to empty). -/
theorem bare_array_forces_hasMore_false (raw : JVal) (xs ys : List JVal) (s : String)
    (h1 : unwrapL3 raw = some (.jarr xs))
    (h2 : jsonParse s = some (.jarr ys)) :
    parseCatalystResponse raw = ⟨xs, false⟩ ∧
    parseCatalystResponse (.jobj [("data", .jstr s),
      ("info", .jobj [("more_records", .jbool true)])]) = ⟨ys, false⟩ ∧
    parseCatalystResponse (.jobj [("info", .jobj [("more_records", .jbool true)])]) =
      ⟨[], true⟩ := by
  refine ⟨?_, ?_, rfl⟩
  · simp only [parseCatalystResponse, h1]
  · have hu : unwrapL3 (.jobj [("data", .jstr s),
        ("info", .jobj [("more_records", .jbool true)])]) = jsonParse s := rfl
    simp only [parseCatalystResponse, hu, h2]

/-- C10 witness: a bare-array payload and a double-encoded non-empty `data`
string next to a literal `more_records: true`. -/
theorem bare_array_forces_hasMore_false_witness :
    unwrapL3 (.jarr []) = some (.jarr []) ∧
    jsonParse "[1]" = some (.jarr [.jnum 1]) ∧
    (parseCatalystResponse (.jarr []) = ⟨[], false⟩ ∧
     parseCatalystResponse (.jobj [("data", .jstr "[1]"),
       ("info", .jobj [("more_records", .jbool true)])]) = ⟨[.jnum 1], false⟩ ∧
     parseCatalystResponse (.jobj [("info", .jobj [("more_records", .jbool true)])]) =
       ⟨[], true⟩) :=
  ⟨rfl, rfl, bare_array_forces_hasMore_false (.jarr []) [] [.jnum 1] "[1]" rfl rfl⟩

/-- C6: the classifier concatenates trace, message and reason into one corpus,
a rule is returned exactly when one of its patterns matches the corpus, the
returned matches are in table (declaration) order — a sublist of
`EXCEPTION_PATTERNS` — and any corpus containing `"NullPointerException"`
yields a non-empty result whose first element is titled "Null Pointer
Exception" with severity "high". -/
theorem analyzeException_order_and_npe (rec : NormalisedRecord)
    (h : strContains (analyzeException rec).corpus "NullPointerException" = true) :
    (analyzeException rec).corpus = String.intercalate "\n"
      [optStr rec.Exception_trace, optStr rec.Error_message,
       optStr rec.Reason_for_the_exception] ∧
    (analyzeException rec).matched.Sublist EXCEPTION_PATTERNS ∧
    (∀ r, r ∈ (analyzeException rec).matched ↔
      (r ∈ EXCEPTION_PATTERNS ∧
        r.patterns.any (fun p => patTest p (analyzeException rec).corpus) = true)) ∧
    ((analyzeException rec).matched ≠ [] ∧
      (analyzeException rec).matched.head?.map (fun r => (r.title, r.severity)) =
        some ("Null Pointer Exception", "high")) := by
  have hmat : (analyzeException rec).matched =
      EXCEPTION_PATTERNS.filter
        (fun r => r.patterns.any (fun p => patTest p (analyzeException rec).corpus)) := rfl
  have h0 : listInfix "NullPointerException".toList (analyzeException rec).corpus.toList
      = true := h
  have h1 : patTest (Pat.subi "NullPointerException") (analyzeException rec).corpus = true := by
    show listInfix (lc "NullPointerException").toList
        (lc (analyzeException rec).corpus).toList = true
    rw [lc_toList, lc_toList]
    exact listInfix_map_toLower h0
  refine ⟨rfl, ?_, ?_, ?_⟩
  · rw [hmat]
    exact List.filter_sublist _
  · intro r
    rw [hmat]
    exact List.mem_filter
  · rw [hmat]
    simp only [EXCEPTION_PATTERNS]
    rw [List.filter_cons_of_pos (by simp [h1])]
    exact ⟨by simp, rfl⟩

/-- C6 witness: a record whose exception trace contains
`"NullPointerException"`. -/
theorem analyzeException_order_and_npe_witness :
    strContains
      (analyzeException ⟨none, .jstr "App", "z", none, none, none, none, none, none,
        none, "Publish", none, none, "m",
        some (.jstr "java.lang.NullPointerException at Foo.bar"), none, none⟩).corpus
      "NullPointerException" = true ∧
    ((analyzeException ⟨none, .jstr "App", "z", none, none, none, none, none, none,
        none, "Publish", none, none, "m",
        some (.jstr "java.lang.NullPointerException at Foo.bar"), none, none⟩).matched ≠ [] ∧
      (analyzeException ⟨none, .jstr "App", "z", none, none, none, none, none, none,
        none, "Publish", none, none, "m",
        some (.jstr "java.lang.NullPointerException at Foo.bar"), none, none⟩).matched.head?.map
          (fun r => (r.title, r.severity)) =
        some ("Null Pointer Exception", "high")) := by
  have h : strContains
      (analyzeException ⟨none, .jstr "App", "z", none, none, none, none, none, none,
        none, "Publish", none, none, "m",
        some (.jstr "java.lang.NullPointerException at Foo.bar"), none, none⟩).corpus
      "NullPointerException" = true := by
    simp only [analyzeException, optStr, jsString_jstr]
    decide
  exact ⟨h, (analyzeException_order_and_npe _ h).2.2.2⟩
